import Mathlib

/-!
# Verification of the VaR calculation engine

A shallow embedding of the `var-calculate-quant` repository's core
(`src/returns.py`, `src/var_methods.py`, `src/portfolio.py`, `src/pipeline.py`),
together with theorems settling the specification's claims.

Modelling conventions:
* Numeric values live in an arbitrary `LinearOrderedField` `K` with a
  `FloorRing` structure (needed by `np.percentile`'s floor).  The repository's
  actual value domain is IEEE `float64`; we model it by exact ordered-field
  arithmetic, with `ℚ` used to evaluate witnesses and `ℝ` used where the
  source applies the transcendental collaborators `np.log`, `np.sqrt` and
  `scipy.stats.norm.ppf`.
* A pandas/NumPy NaN ("undefined") entry is modelled as `none : Option K`;
  `Series.dropna` / `arr[~np.isnan(arr)]` is `clean`.
* External collaborators that the source calls but does not define
  (`np.log`, `np.sqrt`, `scipy.stats.norm.ppf`, the seeded
  `np.random.normal` sampler) are passed as function parameters; the
  repository-faithful instantiations at `ℝ` (with `Real.log`, `Real.sqrt`)
  are given alongside.
* Python exceptions are modelled by `Except VarErr`.
-/

namespace VarCalc

/-- Error kinds surfaced by the core, carrying the Python exception message.
`insufficientData` and `invalidArgument` model `ValueError`s raised with the
corresponding messages; `indexError` models NumPy's `IndexError` (raised by
`np.percentile` on an empty array). -/
inductive VarErr : Type
  | insufficientData (msg : String)
  | invalidArgument (msg : String)
  | indexError (msg : String)
deriving DecidableEq

variable {K : Type} [LinearOrderedField K] [FloorRing K]

/-- Model of `Series.dropna()` / `arr[~np.isnan(arr)]`: drop the undefined entries. -/
def clean (xs : List (Option K)) : List K := xs.filterMap id

/-- Linear interpolation of a sorted sample at real-valued index `h`
(the core of `np.percentile`'s default "linear" method): with `i = ⌊h⌋`,
the value is `s[i] + (h - i) * (s[i+1] - s[i])`, where an out-of-range
`s[i+1]` falls back to `s[i]` (only reachable when the fraction is 0). -/
def interp (s : List K) (h : K) : K :=
  let i : ℕ := (⌊h⌋).toNat
  let lo := s.getD i 0
  let hi := s.getD (i + 1) lo
  lo + (h - (i : K)) * (hi - lo)

/-- Model of `np.percentile(xs, q)` with the default linear interpolation method:
sort the data and linearly interpolate at virtual index `q/100 * (n-1)`. -/
def percentile (xs : List K) (q : K) : K :=
  interp (List.insertionSort (· ≤ ·) xs) (q / 100 * ((xs.length : K) - 1))

/-- Embedding of `historical_var` from `src/var_methods.py`: drop NaNs, fail on an empty
sample, else negate the `(1 - confidence_level)` percentile. -/
def historical_var (xs : List (Option K)) (confidence_level : K) :
    Except VarErr K :=
  let returns := clean xs
  if returns.length = 0 then
    .error (.insufficientData "No valid returns data provided.")
  else
    .ok (-(percentile returns ((1 - confidence_level) * 100)))

/-- Model of `np.mean`: sum divided by length. -/
def sampleMean (r : List K) : K := r.sum / (r.length : K)

/-- The value `np.std(r, ddof=1) ** 2` when it is defined: the sum of squared
deviations from the mean divided by the Bessel divisor `n - 1`. -/
def besselVar (r : List K) : K :=
  (r.map fun x => (x - sampleMean r) ^ 2).sum / ((r.length : K) - 1)

/-- Model of `np.std(r, ddof=1)` squared, with NaN tracking: for `n ≤ 1` the divisor
`n - 1` is `0` and NumPy's `0/0` produces NaN, modelled as `none`. -/
def sampleVar (r : List K) : Option K :=
  if r.length < 2 then none else some (besselVar r)

/-- Embedding of `parametric_var` from `src/var_methods.py`, parametrised by the external
collaborators `sqrt'` (NumPy's square root, applied to the Bessel variance to
obtain `np.std(returns, ddof=1)`) and `ppf` (`scipy.stats.norm.ppf`).
Drop NaNs, fail on an empty sample, else return `-(mu - z * sigma)`.
When `sigma` is NaN (a single observation) the result is NaN (`some` is
replaced by `none`); no exception is raised. -/
def parametric_var (sqrt' ppf : K → K) (xs : List (Option K))
    (confidence_level : K) : Except VarErr (Option K) :=
  let returns := clean xs
  if returns.length = 0 then
    .error (.insufficientData "No valid returns data provided.")
  else
    match sampleVar returns with
    | none => .ok none
    | some v =>
        .ok (some (-(sampleMean returns - ppf confidence_level * sqrt' v)))

/-- The repository's `parametric_var`: value domain `ℝ`, `np.sqrt` is
`Real.sqrt`; `scipy.stats.norm.ppf` stays a parameter (the Normal inverse CDF
is external to the repository). -/
noncomputable def parametric_varR :
    (ℝ → ℝ) → List (Option ℝ) → ℝ → Except VarErr (Option ℝ) :=
  parametric_var Real.sqrt

/-- Embedding of `monte_carlo_var` from `src/var_methods.py`, parametrised by `sampler`,
which models the seeded `np.random.normal(mu * time_horizon,
sigma * np.sqrt(time_horizon), num_simulations)` draw: it receives the sample
mean, the Bessel variance (determining `sigma`), the horizon and the
(non-negative) count, and returns the simulated values.  NumPy behaviour
modelled at error boundaries: a negative size is rejected by
`np.random.normal` with `ValueError("negative dimensions are not allowed")`;
a zero size yields an empty array and `np.percentile` then raises
`IndexError`.  When `sigma` is NaN (a single observation) every draw and the
percentile are NaN, modelled as an `ok none` result. -/
def monte_carlo_var (sampler : K → K → ℕ → ℕ → List K) (xs : List (Option K))
    (confidence_level : K) (num_simulations : ℤ) (time_horizon : ℕ) :
    Except VarErr (Option (K × List K)) :=
  let returns := clean xs
  if returns.length = 0 then
    .error (.insufficientData "No valid returns data provided.")
  else if num_simulations < 0 then
    .error (.invalidArgument "negative dimensions are not allowed")
  else if num_simulations = 0 then
    .error (.indexError "cannot do a non-empty take from an empty axes.")
  else
    match sampleVar returns with
    | none => .ok none
    | some v =>
        let sims := sampler (sampleMean returns) v time_horizon
          num_simulations.toNat
        .ok (some (-(percentile sims ((1 - confidence_level) * 100)), sims))

/-- Ratio `cur / prev` on possibly-undefined entries (`prices / prices.shift(1)`);
a zero denominator is modelled as undefined (the spec's Price Series
invariant excludes non-positive prices, so this is unreachable on valid
data). -/
def optDiv (prev cur : Option K) : Option K :=
  match prev, cur with
  | some b, some a => if b = 0 then none else some (a / b)
  | _, _ => none

/-- Model of `np.log` on a possibly-undefined entry; non-positive arguments are
modelled as undefined (NumPy yields NaN or `-inf` there; unreachable on
valid positive prices). -/
def optLog (log' : K → K) : Option K → Option K
  | none => none
  | some x => if 0 < x then some (log' x) else none

/-- Model of `np.log(prices / prices.shift(1))`: element `0` pairs with the shifted-in
undefined value; element `i > 0` is `log (p[i] / p[i-1])`. -/
def logReturns (log' : K → K) (prices : List (Option K)) : List (Option K) :=
  List.zipWith (fun prev cur => optLog log' (optDiv prev cur))
    (none :: prices) prices

/-- One step of `prices.pct_change()`: `cur / prev - 1`, undefined on an
undefined or zero previous price. -/
def optPct (prev cur : Option K) : Option K :=
  match prev, cur with
  | some b, some a => if b = 0 then none else some (a / b - 1)
  | _, _ => none

/-- Model of `prices.pct_change()`. -/
def simpleReturns (prices : List (Option K)) : List (Option K) :=
  List.zipWith optPct (none :: prices) prices

/-- The message of the `ValueError` raised for an unsupported method. -/
def unknownMethodMsg (method : String) : String :=
  "Unknown method: " ++ method ++ ". Use \x27log\x27 or \x27simple\x27."

/-- Embedding of `calculate_returns` from `src/returns.py`, parametrised by the external
`np.log`. -/
def calculate_returns (log' : K → K) (prices : List (Option K))
    (method : String) : Except VarErr (List (Option K)) :=
  if method = "log" then .ok (logReturns log' prices)
  else if method = "simple" then .ok (simpleReturns prices)
  else .error (.invalidArgument (unknownMethodMsg method))

/-- The repository's `calculate_returns` over `ℝ` with `np.log = Real.log`. -/
noncomputable def calculate_returnsR :
    List (Option ℝ) → String → Except VarErr (List (Option ℝ)) :=
  calculate_returns Real.log

/-- The dictionary returned by `calculate_portfolio_var`. -/
structure PortfolioVar (K : Type) where
  var_percentage : K
  var_dollar : K
deriving DecidableEq

/-- Embedding of `calculate_portfolio_var` from `src/portfolio.py`: the `returns` argument
is unused; `var_dollar = portfolio_value * var_percentage`. -/
def calculate_portfolio_var (returns : List (Option K))
    (portfolio_value var_percentage : K) : PortfolioVar K :=
  { var_percentage := var_percentage
    var_dollar := portfolio_value * var_percentage }

/-- The `VaRResults` dataclass from `src/pipeline.py`.  Fields that the code
can populate with NaN (the parametric and Monte Carlo results and their
dollar versions) are `Option`-valued. -/
structure VaRResults (K : Type) where
  ticker : String
  portfolio_value : K
  confidence_level : K
  returns : List K
  historical_var : K
  parametric_var : Option K
  monte_carlo_var : Option K
  mc_simulated_returns : Option (List K)
  historical_var_dollar : K
  parametric_var_dollar : Option K
  monte_carlo_var_dollar : Option K
deriving DecidableEq

/-- Embedding of `calculate_var_for_ticker` from `src/pipeline.py`, from the point where
the externally fetched price history (`df["Close"]`) is in hand: compute log
returns, drop the undefined leading value, fail when fewer than 30
observations remain, run the three estimators, scale by the portfolio value
and assemble the record.  `log'`, `sqrt'`, `ppf` and `sampler` are the
external numeric collaborators as above (`sampler` is the generator seeded
with 42 by this orchestration path). -/
def calculate_var_for_ticker (log' sqrt' ppf : K → K)
    (sampler : K → K → ℕ → ℕ → List K) (ticker : String)
    (closePrices : List (Option K)) (confidence_level portfolio_value : K)
    (time_horizon : ℕ) (mc_simulations : ℤ) : Except VarErr (VaRResults K) := do
  let returns_series ← calculate_returns log' closePrices "log"
  let returns_clean := clean returns_series
  if returns_clean.length < 30 then
    .error (.insufficientData ("Insufficient data: only " ++
      toString returns_clean.length ++
      " return observations. Need at least 30."))
  else do
    let hist ← historical_var (returns_clean.map some) confidence_level
    let param ← parametric_var sqrt' ppf (returns_clean.map some)
      confidence_level
    let mc ← monte_carlo_var sampler (returns_clean.map some)
      confidence_level mc_simulations time_horizon
    .ok
      { ticker := ticker
        portfolio_value := portfolio_value
        confidence_level := confidence_level
        returns := returns_clean
        historical_var := hist
        parametric_var := param
        monte_carlo_var := mc.map Prod.fst
        mc_simulated_returns := mc.map Prod.snd
        historical_var_dollar := portfolio_value * hist
        parametric_var_dollar := param.map fun v => portfolio_value * v
        monte_carlo_var_dollar :=
          (mc.map Prod.fst).map fun v => portfolio_value * v }

/-- The repository's pipeline over `ℝ` with the genuine `np.log` and
`np.sqrt`; the Normal inverse CDF and the seeded Normal sampler remain
parameters. -/
noncomputable def calculate_var_for_tickerR (ppf : ℝ → ℝ)
    (sampler : ℝ → ℝ → ℕ → ℕ → List ℝ) (ticker : String)
    (closePrices : List (Option ℝ)) (confidence_level portfolio_value : ℝ)
    (time_horizon : ℕ) (mc_simulations : ℤ) : Except VarErr (VaRResults ℝ) :=
  calculate_var_for_ticker Real.log Real.sqrt ppf sampler ticker closePrices
    confidence_level portfolio_value time_horizon mc_simulations

/-- The quantile as the spec words it: "for quantile position p·(n−1) with
p = 1 − confidence_level, interpolate linearly between the two bracketing
order statistics".  Written independently of `percentile` so that the
source's formula can be compared against it. -/
def specQuantile (s : List K) (p : K) : K :=
  let sorted := List.insertionSort (· ≤ ·) s
  let pos : K := p * ((s.length : K) - 1)
  let i : ℕ := (⌊pos⌋).toNat
  let below := sorted.getD i 0
  let above := sorted.getD (i + 1) below
  below + (pos - (i : K)) * (above - below)

/-- The result is a `ValueError` that the spec's error taxonomy classifies as
`InvalidArgument`. -/
def failsWithInvalidArgument {α : Type} (r : Except VarErr α) : Prop :=
  ∃ msg, r = Except.error (.invalidArgument msg)

/-- The result is a `ValueError` that the spec's error taxonomy classifies as
`InsufficientData`. -/
def failsWithInsufficientData {α : Type} (r : Except VarErr α) : Prop :=
  ∃ msg, r = Except.error (.insufficientData msg)

/-- A concrete result record, used to exhibit a successful pipeline run on a
31-day constant price history (all returns are zero, so every VaR estimate
is zero). -/
def exampleVaRResults : VaRResults ℚ :=
  { ticker := "T"
    portfolio_value := 3
    confidence_level := 95 / 100
    returns := List.replicate 30 0
    historical_var := 0
    parametric_var := some 0
    monte_carlo_var := some 0
    mc_simulated_returns := some [0]
    historical_var_dollar := 0
    parametric_var_dollar := some 0
    monte_carlo_var_dollar := some 0 }

/-! ### Basic lemmas about `clean` -/

theorem clean_map_some (l : List K) : clean (l.map some) = l := by
  simp [clean]

theorem clean_nil : clean ([] : List (Option K)) = [] := rfl

theorem clean_cons_some (a : K) (xs : List (Option K)) :
    clean (some a :: xs) = a :: clean xs :=
  List.filterMap_cons_some (f := id) rfl

theorem clean_cons_none (xs : List (Option K)) :
    clean (none :: xs) = clean xs :=
  List.filterMap_cons_none rfl

theorem clean_filter_isSome (xs : List (Option K)) :
    clean (xs.filter fun o => o.isSome) = clean xs := by
  induction xs with
  | nil => rfl
  | cons o rest ih =>
      cases o with
      | none => simpa [clean, List.filter] using ih
      | some a => simpa [clean, List.filter] using ih

theorem clean_of_all_none (xs : List (Option K)) (h : ∀ o ∈ xs, o = none) :
    clean xs = [] := by
  induction xs with
  | nil => rfl
  | cons o rest ih =>
      have ho : o = none := h o (by simp)
      subst ho
      exact (List.filterMap_cons_none rfl).trans
        (ih fun o ho => h o (by simp [ho]))

theorem clean_ne_nil_iff (xs : List (Option K)) :
    clean xs ≠ [] ↔ (clean xs).length ≠ 0 := by
  simp [List.length_eq_zero]

/-! ### Monotonicity of the interpolated percentile -/

theorem sorted_getD_le (s : List K) (hs : s.Sorted (· ≤ ·)) {i j : ℕ}
    (hij : i ≤ j) (hj : j < s.length) : s.getD i 0 ≤ s.getD j 0 := by
  have hi : i < s.length := lt_of_le_of_lt hij hj
  rw [List.getD_eq_getElem s 0 hi, List.getD_eq_getElem s 0 hj]
  rcases eq_or_lt_of_le hij with rfl | hlt
  · exact le_refl _
  · have := hs.rel_get_of_lt (a := ⟨i, hi⟩) (b := ⟨j, hj⟩) hlt
    simpa [List.get_eq_getElem] using this

theorem sorted_getD_succ_le (s : List K) (hs : s.Sorted (· ≤ ·)) (i : ℕ) :
    s.getD i 0 ≤ s.getD (i + 1) (s.getD i 0) := by
  rcases lt_or_ge (i + 1) s.length with hlt | hge
  · rw [List.getD_eq_getElem s _ hlt]
    rw [List.getD_eq_getElem s 0 (Nat.lt_of_succ_lt hlt)]
    have := hs.rel_get_of_lt (a := ⟨i, Nat.lt_of_succ_lt hlt⟩)
      (b := ⟨i + 1, hlt⟩) (by simp)
    simpa [List.get_eq_getElem] using this
  · rw [List.getD_eq_default s _ hge]

theorem floor_toNat_cast_le {h : K} (h0 : 0 ≤ h) :
    ((⌊h⌋.toNat : ℕ) : K) ≤ h := by
  have hfl : (0 : ℤ) ≤ ⌊h⌋ := Int.floor_nonneg.mpr h0
  have : ((⌊h⌋.toNat : ℤ) : K) = ((⌊h⌋ : ℤ) : K) := by
    rw [Int.toNat_of_nonneg hfl]
  calc ((⌊h⌋.toNat : ℕ) : K) = ((⌊h⌋.toNat : ℤ) : K) := by push_cast; ring
    _ = ((⌊h⌋ : ℤ) : K) := this
    _ ≤ h := Int.floor_le h

theorem lt_floor_toNat_cast_add_one {h : K} (h0 : 0 ≤ h) :
    h < ((⌊h⌋.toNat : ℕ) : K) + 1 := by
  have hfl : (0 : ℤ) ≤ ⌊h⌋ := Int.floor_nonneg.mpr h0
  have heq : ((⌊h⌋.toNat : ℤ) : K) = ((⌊h⌋ : ℤ) : K) := by
    rw [Int.toNat_of_nonneg hfl]
  have := Int.lt_floor_add_one h
  calc h < ((⌊h⌋ : ℤ) : K) + 1 := this
    _ = ((⌊h⌋.toNat : ℕ) : K) + 1 := by rw [← heq]; push_cast; ring

theorem interp_eq (s : List K) (h : K) :
    interp s h = s.getD (⌊h⌋).toNat 0 + (h - (((⌊h⌋).toNat : ℕ) : K)) *
      (s.getD ((⌊h⌋).toNat + 1) (s.getD (⌊h⌋).toNat 0) -
        s.getD (⌊h⌋).toNat 0) := rfl

theorem interp_mono (s : List K) (hs : s.Sorted (· ≤ ·)) {h1 h2 : K}
    (h0 : 0 ≤ h1) (h12 : h1 ≤ h2) (hn : h2 ≤ (s.length : K) - 1) :
    interp s h1 ≤ interp s h2 := by
  have h0' : 0 ≤ h2 := le_trans h0 h12
  rw [interp_eq, interp_eq]
  set i1 : ℕ := (⌊h1⌋).toNat with hi1
  set i2 : ℕ := (⌊h2⌋).toNat with hi2
  have hc1 : ((i1 : ℕ) : K) ≤ h1 := floor_toNat_cast_le h0
  have hc1' : h1 < ((i1 : ℕ) : K) + 1 := lt_floor_toNat_cast_add_one h0
  have hc2 : ((i2 : ℕ) : K) ≤ h2 := floor_toNat_cast_le h0'
  have hc2' : h2 < ((i2 : ℕ) : K) + 1 := lt_floor_toNat_cast_add_one h0'
  have hi12 : i1 ≤ i2 := by
    have := Int.floor_mono h12
    exact Int.toNat_le_toNat this
  have hi2n : i2 < s.length := by
    have hcast : ((i2 + 1 : ℕ) : K) ≤ ((s.length : ℕ) : K) := by
      push_cast
      linarith
    have := Nat.cast_le (α := K) |>.mp hcast
    omega
  have key1 : 0 ≤ h1 - (i1 : K) := by linarith
  have key1' : h1 - (i1 : K) ≤ 1 := by linarith
  have key2 : 0 ≤ h2 - (i2 : K) := by linarith
  have hd1 : s.getD i1 0 ≤ s.getD (i1 + 1) (s.getD i1 0) :=
    sorted_getD_succ_le s hs i1
  have hd2 : s.getD i2 0 ≤ s.getD (i2 + 1) (s.getD i2 0) :=
    sorted_getD_succ_le s hs i2
  rcases eq_or_lt_of_le hi12 with heq | hlt
  · rw [heq] at hc1 hc1' ⊢
    have hg : h1 - (i2 : K) ≤ h2 - (i2 : K) := by linarith
    have := mul_le_mul_of_nonneg_right hg (sub_nonneg.mpr hd2)
    linarith
  · have step1 : s.getD i1 0 + (h1 - (i1 : K)) *
        (s.getD (i1 + 1) (s.getD i1 0) - s.getD i1 0)
        ≤ s.getD (i1 + 1) (s.getD i1 0) := by
      have := mul_le_mul_of_nonneg_right key1' (sub_nonneg.mpr hd1)
      linarith
    have hi1n : i1 + 1 < s.length := lt_of_le_of_lt hlt hi2n
    have step2 : s.getD (i1 + 1) (s.getD i1 0) ≤ s.getD i2 0 := by
      have e1 : s.getD (i1 + 1) (s.getD i1 0) = s.getD (i1 + 1) 0 := by
        rw [List.getD_eq_getElem s _ hi1n, List.getD_eq_getElem s 0 hi1n]
      rw [e1]
      exact sorted_getD_le s hs (Nat.succ_le_of_lt hlt) hi2n
    have step3 : s.getD i2 0 ≤ s.getD i2 0 + (h2 - (i2 : K)) *
        (s.getD (i2 + 1) (s.getD i2 0) - s.getD i2 0) := by
      have := mul_nonneg key2 (sub_nonneg.mpr hd2)
      linarith
    linarith

theorem percentile_mono (xs : List K) (hne : xs ≠ []) {q1 q2 : K}
    (h0 : 0 ≤ q1) (h12 : q1 ≤ q2) (h100 : q2 ≤ 100) :
    percentile xs q1 ≤ percentile xs q2 := by
  have hlen : 1 ≤ xs.length := List.length_pos.mpr hne
  have hlenK : (1 : K) ≤ (xs.length : K) := by exact_mod_cast hlen
  have hsorted : (List.insertionSort (· ≤ ·) xs).Sorted (· ≤ ·) :=
    List.sorted_insertionSort _ xs
  have hlensort : (List.insertionSort (· ≤ ·) xs).length = xs.length :=
    List.length_insertionSort _ xs
  unfold percentile
  apply interp_mono _ hsorted
  · exact mul_nonneg (div_nonneg h0 (by norm_num)) (by linarith)
  · apply mul_le_mul_of_nonneg_right
    · exact div_le_div_of_nonneg_right h12 (by norm_num)
    · linarith
  · rw [hlensort]
    calc q2 / 100 * ((xs.length : K) - 1) ≤ 1 * ((xs.length : K) - 1) := by
          apply mul_le_mul_of_nonneg_right
          · rw [div_le_one (by norm_num : (0:K) < 100)]
            exact h100
          · linarith
      _ = (xs.length : K) - 1 := one_mul _

/-! ### Log-return lemmas -/

theorem logReturns_zip_pos (log' : K → K) :
    ∀ (b : K) (rest : List K), 0 < b → (∀ x ∈ rest, 0 < x) →
    List.zipWith (fun prev cur => optLog log' (optDiv prev cur))
      ((b :: rest).map some) (rest.map some)
      = List.zipWith (fun b a => some (log' (a / b))) (b :: rest) rest := by
  intro b rest
  induction rest generalizing b with
  | nil => intro _ _; rfl
  | cons a rest ih =>
      intro hb hrest
      have ha : 0 < a := hrest a (by simp)
      have h1 : optLog log' (optDiv (some b) (some a)) = some (log' (a / b)) := by
        simp [optDiv, optLog, ne_of_gt hb, div_pos ha hb]
      simp only [List.map_cons, List.zipWith_cons_cons]
      rw [show optLog log' (optDiv (some b) (some a)) = some (log' (a / b)) from h1]
      refine congrArg _ ?_
      have := ih a ha (fun x hx => hrest x (by simp [hx]))
      simpa using this

theorem logReturns_map_some_pos (log' : K → K) (p : K) (rest : List K)
    (hp : 0 < p) (hrest : ∀ x ∈ rest, 0 < x) :
    logReturns log' ((p :: rest).map some)
      = none :: List.zipWith (fun b a => some (log' (a / b))) (p :: rest) rest := by
  unfold logReturns
  simp only [List.map_cons, List.zipWith_cons_cons]
  refine congrArg₂ _ rfl ?_
  have := logReturns_zip_pos log' p rest hp hrest
  simpa using this

theorem clean_zip_some (f : K → K → K) : ∀ (xs ys : List K),
    clean (List.zipWith (fun b a => some (f b a)) xs ys)
      = List.zipWith f xs ys := by
  intro xs
  induction xs with
  | nil => intro ys; rfl
  | cons x xs ih =>
      intro ys
      cases ys with
      | nil => rfl
      | cons y ys =>
          show clean (some (f x y) :: List.zipWith _ xs ys)
            = f x y :: List.zipWith f xs ys
          unfold clean
          rw [List.filterMap_cons_some (f := id) rfl]
          exact congrArg _ (ih ys)

theorem clean_logReturns_map_some (log' : K → K) (ps : List K)
    (hpos : ∀ x ∈ ps, 0 < x) :
    clean (logReturns log' (ps.map some))
      = List.zipWith (fun b a => log' (a / b)) ps ps.tail := by
  cases ps with
  | nil => rfl
  | cons p rest =>
      rw [logReturns_map_some_pos log' p rest (hpos p (by simp))
        (fun x hx => hpos x (by simp [hx]))]
      show clean (none :: _) = _
      unfold clean
      rw [List.filterMap_cons_none rfl]
      exact clean_zip_some (fun b a => log' (a / b)) (p :: rest) rest

theorem clean_logReturns_length (log' : K → K) (ps : List K)
    (hpos : ∀ x ∈ ps, 0 < x) :
    (clean (logReturns log' (ps.map some))).length = ps.length - 1 := by
  rw [clean_logReturns_map_some log' ps hpos]
  cases ps with
  | nil => rfl
  | cons p rest => simp [List.length_zipWith]

/-! ### Replicate lemmas (used to exhibit concrete runs) -/

theorem getD_replicate_zero (n i : ℕ) :
    (List.replicate n (0 : K)).getD i 0 = 0 := by
  rcases lt_or_ge i n with h | h
  · rw [List.getD_eq_getElem _ _ (by simpa using h)]
    simp
  · exact List.getD_eq_default _ _ (by simpa using h)

theorem sorted_replicate (n : ℕ) (a : K) :
    (List.replicate n a).Sorted (· ≤ ·) :=
  List.pairwise_replicate.mpr (Or.inr le_rfl)

theorem insertionSort_replicate (n : ℕ) (a : K) :
    List.insertionSort (· ≤ ·) (List.replicate n a) = List.replicate n a :=
  (sorted_replicate n a).insertionSort_eq

theorem percentile_replicate_zero (n : ℕ) (q : K) :
    percentile (List.replicate n (0 : K)) q = 0 := by
  unfold percentile
  rw [insertionSort_replicate, interp_eq, getD_replicate_zero,
    getD_replicate_zero]
  ring

theorem sampleMean_replicate_zero (n : ℕ) :
    sampleMean (List.replicate n (0 : K)) = 0 := by
  simp [sampleMean, List.sum_replicate]

theorem besselVar_replicate_zero (n : ℕ) :
    besselVar (List.replicate n (0 : K)) = 0 := by
  simp [besselVar, sampleMean_replicate_zero, List.map_replicate,
    List.sum_replicate]

/-! ### Reduction lemmas for the `Except` monad -/

theorem ok_bind {α β : Type} (a : α) (f : α → Except VarErr β) :
    (Except.ok a >>= f) = f a := rfl

theorem error_bind {α β : Type} (e : VarErr) (f : α → Except VarErr β) :
    ((Except.error e : Except VarErr α) >>= f) = .error e := rfl

/-- Rewriting `specQuantile` as interpolation on the sorted sample. -/
theorem specQuantile_eq_interp (s : List K) (p : K) :
    specQuantile s p
      = interp (List.insertionSort (· ≤ ·) s) (p * ((s.length : K) - 1)) :=
  rfl

/-! ### Claim theorems -/

/-- C1: for every non-empty (after NaN removal) return sequence and every
confidence level `c` in (0,1), `historical_var` returns exactly the negation
of the `(1 - c)` quantile of the empirical distribution, where the quantile
is linear interpolation between the two order statistics bracketing position
`p * (n - 1)` with `p = 1 - c` (`specQuantile`, written from the spec's
wording). -/
theorem historical_var_is_neg_interpolated_quantile (xs : List (Option K))
    (c : K) (h0 : 0 < c) (h1 : c < 1) (hne : clean xs ≠ []) :
    historical_var xs c = .ok (-(specQuantile (clean xs) (1 - c))) := by
  have hlen : ¬(clean xs).length = 0 := (clean_ne_nil_iff xs).mp hne
  unfold historical_var percentile
  rw [if_neg hlen, specQuantile_eq_interp,
    mul_div_cancel_right₀ (1 - c) (by norm_num : (100 : K) ≠ 0)]

/-- Witness for C1 at a concrete rational sample. -/
theorem historical_var_is_neg_interpolated_quantile_witness :
    (0 : ℚ) < 3 / 4 ∧ (3 / 4 : ℚ) < 1
    ∧ clean [some (0 : ℚ), some 1] ≠ []
    ∧ historical_var [some (0 : ℚ), some 1] (3 / 4)
        = .ok (-(specQuantile (clean [some (0 : ℚ), some 1]) (1 - 3 / 4))) :=
  ⟨by norm_num, by norm_num, by simp [clean],
    historical_var_is_neg_interpolated_quantile [some (0 : ℚ), some 1] (3 / 4)
      (by norm_num) (by norm_num) (by simp [clean])⟩

/-- C6: for a fixed return sample and confidence levels `c1 < c2` in (0,1),
`historical_var` succeeds on both and the VaR at `c1` is at most the VaR at
`c2` (monotone non-decreasing in the confidence level). -/
theorem historical_var_monotone_in_confidence (xs : List (Option K))
    (c1 c2 : K) (h0 : 0 < c1) (h12 : c1 < c2) (h1 : c2 < 1)
    (hne : clean xs ≠ []) :
    ∃ v1 v2, historical_var xs c1 = .ok v1 ∧ historical_var xs c2 = .ok v2
      ∧ v1 ≤ v2 := by
  have hlen : ¬(clean xs).length = 0 := (clean_ne_nil_iff xs).mp hne
  refine ⟨-(percentile (clean xs) ((1 - c1) * 100)),
    -(percentile (clean xs) ((1 - c2) * 100)), ?_, ?_, ?_⟩
  · unfold historical_var
    rw [if_neg hlen]
  · unfold historical_var
    rw [if_neg hlen]
  · have hmono : percentile (clean xs) ((1 - c2) * 100)
        ≤ percentile (clean xs) ((1 - c1) * 100) := by
      apply percentile_mono (clean xs) hne
      · exact mul_nonneg (by linarith) (by norm_num)
      · exact mul_le_mul_of_nonneg_right (by linarith) (by norm_num)
      · calc (1 - c1) * 100 ≤ 1 * 100 :=
              mul_le_mul_of_nonneg_right (by linarith) (by norm_num)
          _ = 100 := one_mul _
    exact neg_le_neg hmono

/-- Witness for C6 at a concrete rational sample. -/
theorem historical_var_monotone_in_confidence_witness :
    (0 : ℚ) < 1 / 2 ∧ (1 / 2 : ℚ) < 3 / 4 ∧ (3 / 4 : ℚ) < 1
    ∧ clean [some (0 : ℚ), some 1] ≠ []
    ∧ ∃ v1 v2, historical_var [some (0 : ℚ), some 1] (1 / 2) = .ok v1
        ∧ historical_var [some (0 : ℚ), some 1] (3 / 4) = .ok v2 ∧ v1 ≤ v2 :=
  ⟨by norm_num, by norm_num, by norm_num, by simp [clean],
    historical_var_monotone_in_confidence [some (0 : ℚ), some 1] (1 / 2)
      (3 / 4) (by norm_num) (by norm_num) (by norm_num) (by simp [clean])⟩

/-- C5 counterexample: on the single-observation sample `[1.0]` the code
raises nothing at all: `np.std(·, ddof=1)` silently produces NaN
(divisor `n - 1 = 0`), so `parametric_var` returns a NaN value instead of
failing with InsufficientData. -/
theorem parametric_var_single_obs_no_error :
    parametric_varR (fun _ => 0) [some 1] (95 / 100) = .ok none
    ∧ ¬ failsWithInsufficientData
        (parametric_varR (fun _ => 0) [some 1] (95 / 100)) := by
  have h : parametric_varR (fun _ => 0) [some 1] (95 / 100) = .ok none := by
    show parametric_var Real.sqrt (fun _ => 0) [some 1] (95 / 100) = .ok none
    simp [parametric_var, clean, sampleVar]
  refine ⟨h, ?_⟩
  rw [failsWithInsufficientData, h]
  rintro ⟨m, hm⟩
  exact Except.noConfusion hm

/-- C5 amended: `parametric_var` fails with InsufficientData only on an empty
cleaned sample; on exactly one observation it instead succeeds and returns
the undefined (NaN) value produced by the Bessel divisor `n - 1 = 0`. -/
theorem parametric_var_single_obs_nan (sqrt' ppf : K → K)
    (xs : List (Option K)) (c : K) (h1 : (clean xs).length = 1) :
    parametric_var sqrt' ppf xs c = .ok none := by
  simp [parametric_var, sampleVar, h1]

/-- Witness for the amended C5 at a concrete rational sample. -/
theorem parametric_var_single_obs_nan_witness :
    (clean [some (2 : ℚ)]).length = 1
    ∧ parametric_var id id [some (2 : ℚ)] (1 / 2) = .ok none :=
  ⟨by simp [clean],
    parametric_var_single_obs_nan id id [some (2 : ℚ)] (1 / 2)
      (by simp [clean])⟩

/-- C4 counterexample: with `num_simulations = 0` the call fails, but with
NumPy's IndexError from taking a percentile of the empty simulated sample,
not with an InvalidArgument error. -/
theorem monte_carlo_var_zero_sims_not_invalid_argument :
    monte_carlo_var (K := ℚ) (fun _ _ _ _ => []) [some 1] (95 / 100) 0 1
      = .error (.indexError "cannot do a non-empty take from an empty axes.")
    ∧ ¬ failsWithInvalidArgument
        (monte_carlo_var (K := ℚ) (fun _ _ _ _ => []) [some 1] (95 / 100)
          0 1) := by
  have h : monte_carlo_var (K := ℚ) (fun _ _ _ _ => []) [some 1] (95 / 100) 0 1
      = .error (.indexError "cannot do a non-empty take from an empty axes.")
    := by
    simp [monte_carlo_var, clean]
  refine ⟨h, ?_⟩
  rw [failsWithInvalidArgument, h]
  rintro ⟨m, hm⟩
  simp at hm

/-- C4 amended: `monte_carlo_var` performs no simulation-count validation of
its own; a negative count is rejected inside NumPy with the
"negative dimensions" ValueError (an InvalidArgument), a zero count fails
with an IndexError from the percentile of an empty array, and every positive
count succeeds. -/
theorem monte_carlo_var_sim_count_behavior (sampler : K → K → ℕ → ℕ → List K)
    (xs : List (Option K)) (c : K) (numSim : ℤ) (horizon : ℕ)
    (hne : clean xs ≠ []) :
    (numSim < 0 → monte_carlo_var sampler xs c numSim horizon
        = .error (.invalidArgument "negative dimensions are not allowed"))
    ∧ (numSim = 0 → monte_carlo_var sampler xs c numSim horizon
        = .error
          (.indexError "cannot do a non-empty take from an empty axes."))
    ∧ (0 < numSim →
        ∃ out, monte_carlo_var sampler xs c numSim horizon = .ok out) := by
  have hlen : ¬(clean xs).length = 0 := (clean_ne_nil_iff xs).mp hne
  refine ⟨?_, ?_, ?_⟩
  · intro h
    simp only [monte_carlo_var]
    rw [if_neg hlen, if_pos h]
  · intro h
    simp only [monte_carlo_var]
    rw [if_neg hlen, if_neg (by omega), if_pos h]
  · intro h
    simp only [monte_carlo_var]
    rw [if_neg hlen, if_neg (by omega), if_neg (by omega)]
    rcases hv : sampleVar (clean xs) with _ | v
    · exact ⟨none, rfl⟩
    · exact ⟨_, rfl⟩

/-- Witness for the amended C4 at a concrete rational sample, exercising the
negative, zero and positive simulation counts. -/
theorem monte_carlo_var_sim_count_behavior_witness :
    monte_carlo_var (K := ℚ) (fun _ _ _ _ => [0]) [some 1, some 2] (95 / 100)
        (-3) 1
      = .error (.invalidArgument "negative dimensions are not allowed")
    ∧ monte_carlo_var (K := ℚ) (fun _ _ _ _ => [0]) [some 1, some 2]
        (95 / 100) 0 1
      = .error (.indexError "cannot do a non-empty take from an empty axes.")
    ∧ ∃ out, monte_carlo_var (K := ℚ) (fun _ _ _ _ => [0]) [some 1, some 2]
        (95 / 100) 5 1 = .ok out :=
  ⟨(monte_carlo_var_sim_count_behavior _ _ _ _ _ (by simp [clean])).1
      (by norm_num),
    (monte_carlo_var_sim_count_behavior _ _ _ _ _ (by simp [clean])).2.1 rfl,
    (monte_carlo_var_sim_count_behavior _ _ _ _ _ (by simp [clean])).2.2
      (by norm_num)⟩

/-- C10: each estimator depends on its input only through the NaN-cleaned
sample, so filtering out the undefined entries beforehand does not change the
result, and an all-NaN input behaves exactly like the empty input (same
InsufficientData error). -/
theorem var_methods_nan_removal_invariant (sqrt' ppf : K → K)
    (sampler : K → K → ℕ → ℕ → List K) (xs : List (Option K)) (c : K)
    (numSim : ℤ) (horizon : ℕ) :
    historical_var (xs.filter fun o => o.isSome) c = historical_var xs c
    ∧ parametric_var sqrt' ppf (xs.filter fun o => o.isSome) c
        = parametric_var sqrt' ppf xs c
    ∧ monte_carlo_var sampler (xs.filter fun o => o.isSome) c numSim horizon
        = monte_carlo_var sampler xs c numSim horizon
    ∧ ((∀ o ∈ xs, o = none) →
        historical_var xs c = historical_var [] c
        ∧ parametric_var sqrt' ppf xs c = parametric_var sqrt' ppf [] c
        ∧ monte_carlo_var sampler xs c numSim horizon
            = monte_carlo_var sampler [] c numSim horizon) := by
  refine ⟨?_, ?_, ?_, ?_⟩
  · unfold historical_var
    rw [clean_filter_isSome]
  · unfold parametric_var
    rw [clean_filter_isSome]
  · unfold monte_carlo_var
    rw [clean_filter_isSome]
  · intro h
    have hc : clean xs = [] := clean_of_all_none xs h
    have hnil : clean ([] : List (Option K)) = [] := rfl
    exact ⟨by simp only [historical_var, hc, hnil],
      by simp only [parametric_var, hc, hnil],
      by simp only [monte_carlo_var, hc, hnil]⟩

/-- Witness for C10 at the all-NaN rational input `[none]`. -/
theorem var_methods_nan_removal_invariant_witness :
    historical_var (([none] : List (Option ℚ)).filter fun o => o.isSome)
        (1 / 2) = historical_var [none] (1 / 2)
    ∧ parametric_var id id
        (([none] : List (Option ℚ)).filter fun o => o.isSome) (1 / 2)
      = parametric_var id id [none] (1 / 2)
    ∧ monte_carlo_var (fun _ _ _ _ => [0])
        (([none] : List (Option ℚ)).filter fun o => o.isSome) (1 / 2) 1 1
      = monte_carlo_var (fun _ _ _ _ => [0]) [none] (1 / 2) 1 1
    ∧ (historical_var ([none] : List (Option ℚ)) (1 / 2)
        = historical_var [] (1 / 2)
      ∧ parametric_var id id ([none] : List (Option ℚ)) (1 / 2)
        = parametric_var id id [] (1 / 2)
      ∧ monte_carlo_var (fun _ _ _ _ => [0]) ([none] : List (Option ℚ))
          (1 / 2) 1 1
        = monte_carlo_var (fun _ _ _ _ => [0]) [] (1 / 2) 1 1) := by
  obtain ⟨a, b, c, d⟩ := var_methods_nan_removal_invariant id id
    (fun _ _ _ _ => [0]) ([none] : List (Option ℚ)) (1 / 2) 1 1
  exact ⟨a, b, c, d (by simp)⟩

/-- C3: whenever the cleaned log-return series of an all-positive price
history has fewer than 30 observations (price history shorter than 31), the
pipeline fails with the InsufficientData error and produces no result
record. -/
theorem pipeline_insufficient_data_below_30 (log' sqrt' ppf : K → K)
    (sampler : K → K → ℕ → ℕ → List K) (ticker : String) (ps : List K)
    (c pv : K) (horizon : ℕ) (numSim : ℤ)
    (hpos : ∀ x ∈ ps, 0 < x) (hlen : ps.length < 31) :
    calculate_var_for_ticker log' sqrt' ppf sampler ticker (ps.map some) c pv
        horizon numSim
      = .error (.insufficientData ("Insufficient data: only "
          ++ toString (ps.length - 1)
          ++ " return observations. Need at least 30.")) := by
  have hclen := clean_logReturns_length log' ps hpos
  have hcr : calculate_returns log' (ps.map some) "log"
      = .ok (logReturns log' (ps.map some)) := by
    unfold calculate_returns
    rw [if_pos rfl]
  unfold calculate_var_for_ticker
  rw [hcr, ok_bind]
  simp only [hclen]
  rw [if_pos (show ps.length - 1 < 30 by omega)]

/-- Witness for C3 at the concrete two-price history `[1, 2]`. -/
theorem pipeline_insufficient_data_below_30_witness :
    (∀ x ∈ [(1 : ℚ), 2], 0 < x) ∧ ([(1 : ℚ), 2]).length < 31
    ∧ calculate_var_for_ticker (K := ℚ) id id id (fun _ _ _ _ => [0]) "T"
        (([(1 : ℚ), 2]).map some) (95 / 100) 3 1 1
      = .error (.insufficientData ("Insufficient data: only "
          ++ toString (([(1 : ℚ), 2]).length - 1)
          ++ " return observations. Need at least 30.")) :=
  ⟨by norm_num, by norm_num,
    pipeline_insufficient_data_below_30 id id id (fun _ _ _ _ => [0]) "T"
      [(1 : ℚ), 2] (95 / 100) 3 1 1 (by norm_num) (by norm_num)⟩

/-- C9: `calculate_portfolio_var` returns `var_dollar` equal to
`portfolio_value * var_percentage` exactly (for every real percentage,
including zero and negative values), and every result record the pipeline
produces has each dollar VaR field equal to the corresponding percentage VaR
field times the portfolio value exactly. -/
theorem dollar_var_is_portfolio_value_times_percentage
    (rs : List (Option K)) (pv0 vp : K) (log' sqrt' ppf : K → K)
    (sampler : K → K → ℕ → ℕ → List K) (ticker : String)
    (cp : List (Option K)) (c pv : K) (horizon : ℕ) (numSim : ℤ)
    (res : VaRResults K) :
    (calculate_portfolio_var rs pv0 vp).var_dollar = pv0 * vp
    ∧ (calculate_var_for_ticker log' sqrt' ppf sampler ticker cp c pv
          horizon numSim = .ok res →
        res.portfolio_value = pv
        ∧ res.historical_var_dollar
            = res.portfolio_value * res.historical_var
        ∧ res.parametric_var_dollar
            = res.parametric_var.map (fun v => res.portfolio_value * v)
        ∧ res.monte_carlo_var_dollar
            = res.monte_carlo_var.map (fun v => res.portfolio_value * v)) := by
  refine ⟨rfl, ?_⟩
  intro hrun
  have hcr : calculate_returns log' cp "log" = .ok (logReturns log' cp) := by
    unfold calculate_returns
    rw [if_pos rfl]
  unfold calculate_var_for_ticker at hrun
  rw [hcr, ok_bind] at hrun
  by_cases h30 : (clean (logReturns log' cp)).length < 30
  · rw [if_pos h30] at hrun
    exact Except.noConfusion hrun
  · rw [if_neg h30] at hrun
    rcases hh : historical_var ((clean (logReturns log' cp)).map some) c
      with e | hist
    · rw [hh, error_bind] at hrun
      exact Except.noConfusion hrun
    · rw [hh, ok_bind] at hrun
      rcases hp : parametric_var sqrt' ppf
          ((clean (logReturns log' cp)).map some) c with e | param
      · rw [hp, error_bind] at hrun
        exact Except.noConfusion hrun
      · rw [hp, ok_bind] at hrun
        rcases hm : monte_carlo_var sampler
            ((clean (logReturns log' cp)).map some) c numSim horizon
          with e | mc
        · rw [hm, error_bind] at hrun
          exact Except.noConfusion hrun
        · rw [hm, ok_bind] at hrun
          injection hrun with h
          subst h
          exact ⟨rfl, rfl, rfl, rfl⟩

/-- Evaluation of `historical_var` on a constant-zero cleaned sample. -/
theorem historical_var_replicate_zero (n : ℕ) (hn : n ≠ 0) (c : K) :
    historical_var ((List.replicate n (0 : K)).map some) c = .ok 0 := by
  have hcl : clean ((List.replicate n (0 : K)).map some)
      = List.replicate n 0 := clean_map_some _
  simp only [historical_var, hcl, List.length_replicate]
  rw [if_neg hn, percentile_replicate_zero]
  exact congrArg _ neg_zero

/-- Evaluation of `parametric_var` on a constant-zero cleaned sample. -/
theorem parametric_var_replicate_zero (n : ℕ) (hn : 2 ≤ n)
    (sqrt' ppf : K → K) (hs : sqrt' 0 = 0) (c : K) :
    parametric_var sqrt' ppf ((List.replicate n (0 : K)).map some) c
      = .ok (some 0) := by
  have hcl : clean ((List.replicate n (0 : K)).map some)
      = List.replicate n 0 := clean_map_some _
  have hsv : sampleVar (List.replicate n (0 : K)) = some 0 := by
    unfold sampleVar
    rw [if_neg (by simp; omega), besselVar_replicate_zero]
  simp only [parametric_var, hcl, hsv, List.length_replicate]
  rw [if_neg (show ¬n = 0 by omega)]
  have hval : -(sampleMean (List.replicate n (0 : K)) - ppf c * sqrt' 0)
      = 0 := by
    rw [sampleMean_replicate_zero, hs]
    ring
  rw [hval]

/-- Evaluation of `monte_carlo_var` on a constant-zero cleaned sample with
the constant sampler returning a single zero draw. -/
theorem monte_carlo_var_replicate_zero_example (n : ℕ) (hn : 2 ≤ n) (c : K) :
    monte_carlo_var (fun _ _ _ _ => [0]) ((List.replicate n (0 : K)).map some)
        c 1 1 = .ok (some (0, [0])) := by
  have hcl : clean ((List.replicate n (0 : K)).map some)
      = List.replicate n 0 := clean_map_some _
  have hsv : sampleVar (List.replicate n (0 : K)) = some 0 := by
    unfold sampleVar
    rw [if_neg (by simp; omega), besselVar_replicate_zero]
  simp only [monte_carlo_var, hcl, hsv, List.length_replicate]
  rw [if_neg (show ¬n = 0 by omega), if_neg (by norm_num),
    if_neg (by norm_num)]
  have hperc : percentile ([0] : List K) ((1 - c) * 100) = 0 := by
    have h1 : ([0] : List K) = List.replicate 1 0 := rfl
    rw [h1, percentile_replicate_zero]
  rw [hperc, neg_zero]

/-- A successful concrete pipeline run over `ℚ`: 31 constant prices, the
constant-zero log collaborator, identity square root, constant inverse CDF
and the one-draw sampler; the run succeeds and returns
`exampleVaRResults`. -/
theorem pipeline_example_run :
    calculate_var_for_ticker (K := ℚ) (fun _ => 0) id (fun _ => 1)
        (fun _ _ _ _ => [0]) "T" (List.replicate 31 (some 1)) (95 / 100) 3 1 1
      = .ok exampleVaRResults := by
  have hps : ((1 : ℚ) :: List.replicate 30 1).map some
      = List.replicate 31 (some (1 : ℚ)) := by
    rw [List.map_cons, List.map_replicate, ← List.replicate_succ]
  have hpos : ∀ x ∈ (1 : ℚ) :: List.replicate 30 1, 0 < x := by
    intro x hx
    rcases List.mem_cons.mp hx with rfl | hx
    · norm_num
    · rw [List.eq_of_mem_replicate hx]
      norm_num
  have hclean : clean (logReturns (K := ℚ) (fun _ => 0)
      (List.replicate 31 (some 1))) = List.replicate 30 (0 : ℚ) := by
    rw [← hps, clean_logReturns_map_some _ _ hpos]
    simp only [List.tail_cons]
    rw [show ((1 : ℚ) :: List.replicate 30 1) = List.replicate 31 1 from by
      rw [← List.replicate_succ]]
    rw [List.zipWith_replicate]
    norm_num
  have hhist := historical_var_replicate_zero (K := ℚ) 30 (by norm_num)
    (95 / 100)
  have hparam := parametric_var_replicate_zero (K := ℚ) 30 (by norm_num) id
    (fun _ => 1) rfl (95 / 100)
  have hmc := monte_carlo_var_replicate_zero_example (K := ℚ) 30
    (by norm_num) (95 / 100)
  have hcr : calculate_returns (K := ℚ) (fun _ => 0)
      (List.replicate 31 (some 1)) "log"
      = .ok (logReturns (fun _ => 0) (List.replicate 31 (some 1))) := by
    unfold calculate_returns
    rw [if_pos rfl]
  unfold calculate_var_for_ticker
  rw [hcr, ok_bind]
  simp only [hclean, List.length_replicate]
  rw [if_neg (by norm_num), hhist, ok_bind, hparam, ok_bind, hmc, ok_bind]
  simp [exampleVaRResults, Option.map_some']

/-- Witness for C9: the portfolio scaling at a negative percentage and the
dollar fields of the concrete successful pipeline run. -/
theorem dollar_var_is_portfolio_value_times_percentage_witness :
    (calculate_portfolio_var (K := ℚ) [] 5 (-2)).var_dollar = 5 * (-2)
    ∧ (exampleVaRResults.portfolio_value = 3
      ∧ exampleVaRResults.historical_var_dollar
          = exampleVaRResults.portfolio_value
            * exampleVaRResults.historical_var
      ∧ exampleVaRResults.parametric_var_dollar
          = exampleVaRResults.parametric_var.map
            (fun v => exampleVaRResults.portfolio_value * v)
      ∧ exampleVaRResults.monte_carlo_var_dollar
          = exampleVaRResults.monte_carlo_var.map
            (fun v => exampleVaRResults.portfolio_value * v)) :=
  ⟨(dollar_var_is_portfolio_value_times_percentage [] 5 (-2) (fun _ => 0) id
      (fun _ => 1) (fun _ _ _ _ => [0]) "T" (List.replicate 31 (some 1))
      (95 / 100) 3 1 1 exampleVaRResults).1,
    (dollar_var_is_portfolio_value_times_percentage [] 5 (-2) (fun _ => 0) id
      (fun _ => 1) (fun _ _ _ _ => [0]) "T" (List.replicate 31 (some 1))
      (95 / 100) 3 1 1 exampleVaRResults).2 pipeline_example_run⟩

/-- C8: for any method tag other than "log" and "simple",
`calculate_returns` fails with an InvalidArgument error whose message names
the unsupported method. -/
theorem calculate_returns_unknown_method_invalid_argument
    (prices : List (Option ℝ)) (method : String)
    (h1 : method ≠ "log") (h2 : method ≠ "simple") :
    calculate_returnsR prices method
      = .error (.invalidArgument (unknownMethodMsg method))
    ∧ ∃ pre suf, unknownMethodMsg method = pre ++ method ++ suf := by
  constructor
  · show calculate_returns Real.log prices method = _
    unfold calculate_returns
    rw [if_neg h1, if_neg h2]
  · exact ⟨"Unknown method: ", ". Use \x27log\x27 or \x27simple\x27.", rfl⟩

/-- C2: on any sample with at least two valid observations,
`parametric_var` returns `-(mu - z * sigma)` with `mu` the sample mean,
`sigma` the Bessel-corrected sample standard deviation and `z` the Normal
inverse CDF (the external `ppf`) at the confidence level; in particular a
sample with mean exactly 0 and sample standard deviation exactly 0.01 at
confidence 0.95 yields `1.6448536269514722 * 0.01` within 1e-9, given the
spec's stated value of the inverse CDF at 0.95. -/
theorem parametric_var_formula_and_z_scenario (xs : List (Option ℝ)) (c : ℝ)
    (ppf : ℝ → ℝ) (hn : 2 ≤ (clean xs).length) :
    parametric_varR ppf xs c = .ok (some (-(sampleMean (clean xs)
        - ppf c * Real.sqrt (besselVar (clean xs)))))
    ∧ (sampleMean (clean xs) = 0 → besselVar (clean xs) = 1 / 10000 →
        ppf c = 1.6448536269514722 →
        ∃ v, parametric_varR ppf xs c = .ok (some v)
          ∧ |v - 1.6448536269514722 * 0.01| ≤ 1e-9) := by
  have hsv : sampleVar (clean xs) = some (besselVar (clean xs)) := by
    unfold sampleVar
    rw [if_neg (by omega)]
  have hmain : parametric_varR ppf xs c = .ok (some (-(sampleMean (clean xs)
      - ppf c * Real.sqrt (besselVar (clean xs))))) := by
    show parametric_var Real.sqrt ppf xs c = _
    simp only [parametric_var, hsv]
    rw [if_neg (by omega)]
  refine ⟨hmain, ?_⟩
  intro hm hv hz
  refine ⟨_, hmain, ?_⟩
  rw [hm, hv, hz]
  have hsq : Real.sqrt (1 / 10000) = 1 / 100 := by
    rw [show (1 / 10000 : ℝ) = (1 / 100) ^ 2 by norm_num]
    exact Real.sqrt_sq (by norm_num)
  rw [hsq]
  norm_num

/-- Witness for C2 at a concrete 5-observation sample with mean 0 and
Bessel variance exactly 1/10000 (sample standard deviation 0.01). -/
theorem parametric_var_formula_and_z_scenario_witness :
    2 ≤ (clean [some (1 / 100 : ℝ), some (-(1 / 100)), some (1 / 100),
        some (-(1 / 100)), some 0]).length
    ∧ sampleMean (clean [some (1 / 100 : ℝ), some (-(1 / 100)),
        some (1 / 100), some (-(1 / 100)), some 0]) = 0
    ∧ besselVar (clean [some (1 / 100 : ℝ), some (-(1 / 100)),
        some (1 / 100), some (-(1 / 100)), some 0]) = 1 / 10000
    ∧ ∃ v, parametric_varR (fun _ => 1.6448536269514722)
        [some (1 / 100 : ℝ), some (-(1 / 100)), some (1 / 100),
          some (-(1 / 100)), some 0] 0.95 = .ok (some v)
        ∧ |v - 1.6448536269514722 * 0.01| ≤ 1e-9 := by
  have hn : 2 ≤ (clean [some (1 / 100 : ℝ), some (-(1 / 100)),
      some (1 / 100), some (-(1 / 100)), some 0]).length := by
    simp [clean]
  have hm : sampleMean (clean [some (1 / 100 : ℝ), some (-(1 / 100)),
      some (1 / 100), some (-(1 / 100)), some 0]) = 0 := by
    norm_num [clean_cons_some, clean_nil, sampleMean]
  have hv : besselVar (clean [some (1 / 100 : ℝ), some (-(1 / 100)),
      some (1 / 100), some (-(1 / 100)), some 0]) = 1 / 10000 := by
    norm_num [clean_cons_some, clean_nil, besselVar, sampleMean]
  exact ⟨hn, hm, hv,
    (parametric_var_formula_and_z_scenario _ 0.95
      (fun _ => 1.6448536269514722) hn).2 hm hv rfl⟩

/-- C7: the log-return series of an all-positive price series of length
`n ≥ 2` has exactly `n` entries of which the leading one is undefined and is
dropped by cleaning (leaving `n - 1`), and the entry at every position
`i > 0` equals `ln(price[i] / price[i-1])`. -/
theorem calculate_returns_log_values (ps : List ℝ)
    (hpos : ∀ x ∈ ps, 0 < x) (hn : 2 ≤ ps.length) :
    ∃ rs, calculate_returnsR (ps.map some) "log" = .ok rs
      ∧ rs.length = ps.length
      ∧ rs.getD 0 (some 0) = none
      ∧ (clean rs).length = ps.length - 1
      ∧ ∀ i, 0 < i → i < ps.length →
          rs.getD i none
            = some (Real.log (ps.getD i 1 / ps.getD (i - 1) 1)) := by
  obtain ⟨p, rest, rfl⟩ : ∃ p rest, ps = p :: rest := by
    cases ps with
    | nil => simp at hn
    | cons p rest => exact ⟨p, rest, rfl⟩
  have hp : 0 < p := hpos p (by simp)
  have hrest : ∀ x ∈ rest, 0 < x := fun x hx => hpos x (by simp [hx])
  have hform := logReturns_map_some_pos Real.log p rest hp hrest
  refine ⟨logReturns Real.log ((p :: rest).map some), ?_, ?_, ?_, ?_, ?_⟩
  · show calculate_returns Real.log ((p :: rest).map some) "log" = _
    unfold calculate_returns
    rw [if_pos rfl]
  · rw [hform]
    simp [List.length_zipWith]
  · rw [hform]
    rfl
  · have := clean_logReturns_length Real.log (p :: rest) hpos
    simpa using this
  · intro i hi0 hilen
    rw [hform]
    obtain ⟨k, rfl⟩ : ∃ k, i = k + 1 := ⟨i - 1, by omega⟩
    have hk : k < rest.length := by
      simp only [List.length_cons] at hilen
      omega
    have hzlen : k < (List.zipWith (fun b a => some (Real.log (a / b)))
        (p :: rest) rest).length := by
      rw [List.length_zipWith]
      simp
      omega
    have e1 : ((p :: rest).getD (k + 1) 1 : ℝ) = rest[k] := by
      rw [List.getD_eq_getElem _ _ (by simpa using hilen)]
      exact List.getElem_cons_succ p rest k (by simpa using hilen)
    have e2 : ((p :: rest).getD (k + 1 - 1) 1 : ℝ) = (p :: rest)[k] := by
      have hk' : k + 1 - 1 = k := rfl
      rw [hk', List.getD_eq_getElem _ _ (by simp; omega)]
    rw [List.getD_cons_succ, List.getD_eq_getElem _ _ hzlen,
      List.getElem_zipWith, e1, e2]

/-- Witness for C7 at the concrete positive price series `[1, 1]`. -/
theorem calculate_returns_log_values_witness :
    (∀ x ∈ [(1 : ℝ), 1], 0 < x) ∧ 2 ≤ ([(1 : ℝ), 1]).length
    ∧ ∃ rs, calculate_returnsR (([(1 : ℝ), 1]).map some) "log" = .ok rs
      ∧ rs.length = ([(1 : ℝ), 1]).length
      ∧ rs.getD 0 (some 0) = none
      ∧ (clean rs).length = ([(1 : ℝ), 1]).length - 1
      ∧ ∀ i, 0 < i → i < ([(1 : ℝ), 1]).length →
          rs.getD i none = some (Real.log
            (([(1 : ℝ), 1]).getD i 1 / ([(1 : ℝ), 1]).getD (i - 1) 1)) :=
  ⟨by norm_num, by norm_num,
    calculate_returns_log_values [(1 : ℝ), 1] (by norm_num) (by norm_num)⟩

/-- Witness for C8 at the concrete unsupported method tag "mean". -/
theorem calculate_returns_unknown_method_invalid_argument_witness :
    ("mean" ≠ "log") ∧ ("mean" ≠ "simple")
    ∧ calculate_returnsR [] "mean"
        = .error (.invalidArgument (unknownMethodMsg "mean"))
    ∧ ∃ pre suf, unknownMethodMsg "mean" = pre ++ "mean" ++ suf :=
  ⟨by decide, by decide,
    (calculate_returns_unknown_method_invalid_argument [] "mean" (by decide)
      (by decide)).1,
    (calculate_returns_unknown_method_invalid_argument [] "mean" (by decide)
      (by decide)).2⟩

end VarCalc
